import Mathlib

/-!
Shallow embedding of the cargo-semver-checks labeler action
(src/index.ts and src/stdio.ts) together with proofs about the
spec claims on result classification, PR-context resolution, retry
policy, label reconciliation and EPIPE suppression.

Strings from the JavaScript source are modelled as List Char; the
JavaScript truthiness conventions (empty string and 0 are falsy,
null/undefined is None) are made explicit through small helpers.
-/

namespace SemverAction

/-! ## JavaScript-style primitives -/

/-- The ASCII escape character, String.fromCharCode(27) in the source. -/
def escChar : Char := Char.ofNat 27

/-- Characters allowed in the body of an ANSI escape sequence: the
character class [0-9;] of ANSI_ESCAPE_REGEX. -/
def isAnsiBody (c : Char) : Bool := c.isDigit || c = ';'

/-- ASCII whitespace as recognized by the JavaScript regex class \s and
by String.prototype.trim (the Unicode space code points are not used by
the program's inputs and are not modelled). -/
def isJsSpace (c : Char) : Bool :=
  c = ' ' || c = '\t' || c = '\n' || c = '\r' || c = Char.ofNat 11 || c = Char.ofNat 12

/-- ASCII lowercasing, as used for the case-insensitive regex flag. -/
def lowerL (l : List Char) : List Char := l.map Char.toLower

/-- String.prototype.trim: drop whitespace from both ends. -/
def trimL (l : List Char) : List Char :=
  ((l.dropWhile isJsSpace).reverse.dropWhile isJsSpace).reverse

/-- One left-to-right pass of the global replacement of
ESC '[' [0-9;]* 'm' by the empty string, with the non-overlapping scan
semantics of String.prototype.replace.  The Nat argument is fuel that
makes the recursion structural; every step consumes at least one
character, so any fuel of at least the list length gives the scan's
result. -/
def stripAnsiGo : Nat → List Char → List Char
  | 0, l => l
  | _, [] => []
  | fuel + 1, c :: rest =>
    if c = escChar then
      match rest with
      | '[' :: rest2 =>
        match rest2.dropWhile isAnsiBody with
        | 'm' :: rest3 => stripAnsiGo fuel rest3
        | _ => c :: '[' :: stripAnsiGo fuel rest2
      | other => c :: stripAnsiGo fuel other
    else
      c :: stripAnsiGo fuel rest

/-- stripAnsi from src/index.ts: input.replace(ANSI_ESCAPE_REGEX, ""). -/
def stripAnsi (l : List Char) : List Char := stripAnsiGo l.length l

/-- String.prototype.includes, used for the EPIPE test on messages. -/
def containsL (needle : List Char) : List Char → Bool
  | [] => needle.isPrefixOf []
  | c :: rest => needle.isPrefixOf (c :: rest) || containsL needle rest

/-- JavaScript truthiness of a possibly-absent string: null, undefined
and the empty string are falsy. -/
def truthyStr : Option String → Bool
  | none => false
  | some s => s != ""

/-- JavaScript truthiness of a possibly-absent number: null, undefined
and 0 are falsy. -/
def truthyNat : Option Nat → Bool
  | none => false
  | some k => k != 0

/-- The JavaScript expression a || b on possibly-absent strings. -/
def jsOrStr (a b : Option String) : Option String :=
  if truthyStr a then a else b

/-- String.prototype.startsWith, on the character lists of the strings. -/
def jsStartsWith (s pre : String) : Bool := pre.toList.isPrefixOf s.toList

/-! ## Result classifier -/

/-- The SemverType union of the source: "major" | "minor" | "patch". -/
inductive SemverType
  | major
  | minor
  | patch
deriving DecidableEq

/-- Numeric rank of a severity under the order major > minor > patch. -/
def sevRank : SemverType → Nat
  | .major => 2
  | .minor => 1
  | .patch => 0

/-- The lowercase severity word. -/
def sevWordL : SemverType → List Char
  | .major => "major".toList
  | .minor => "minor".toList
  | .patch => "patch".toList

/-- The Set of SemverType values built by extractRequiredUpdatesFromText. -/
structure SevSet where
  hasMajor : Bool
  hasMinor : Bool
  hasPatch : Bool
deriving DecidableEq

/-- The empty severity set. -/
def SevSet.empty : SevSet := ⟨false, false, false⟩

/-- Set insertion (found.add in the source). -/
def SevSet.insert (s : SevSet) : SemverType → SevSet
  | .major => { s with hasMajor := true }
  | .minor => { s with hasMinor := true }
  | .patch => { s with hasPatch := true }

/-- Set membership. -/
def SevSet.mem (s : SevSet) : SemverType → Bool
  | .major => s.hasMajor
  | .minor => s.hasMinor
  | .patch => s.hasPatch

/-- found.size > 0 in the source. -/
def SevSet.nonempty (s : SevSet) : Bool := s.hasMajor || s.hasMinor || s.hasPatch

/-- The lowercase phrase matched by the regex
"semver requires new (major|minor|patch) version". -/
def phraseL (t : SemverType) : List Char :=
  "semver requires new ".toList ++ sevWordL t ++ " version".toList

/-- Test whether one of the three severity phrases starts at the head of
the (lowercased) text; the alternatives differ at the severity word, so at
most one can match. -/
def matchSevAt (l : List Char) : Option SemverType :=
  if (phraseL .major).isPrefixOf l then some .major
  else if (phraseL .minor).isPrefixOf l then some .minor
  else if (phraseL .patch).isPrefixOf l then some .patch
  else none

/-- The regex.exec loop of extractRequiredUpdatesFromText: scan left to
right, collect each severity match and continue after its end (the
lastIndex semantics of a global regex).  The Nat argument is structural
fuel; every step consumes at least one character. -/
def scanGo : Nat → List Char → SevSet
  | 0, _ => SevSet.empty
  | _, [] => SevSet.empty
  | fuel + 1, c :: rest =>
    match matchSevAt (c :: rest) with
    | some t => (scanGo fuel (rest.drop ((phraseL t).length - 1))).insert t
    | none => scanGo fuel rest

/-- The full regex.exec scan of a text. -/
def scanUpdates (l : List Char) : SevSet := scanGo l.length l

/-- extractRequiredUpdatesFromText from src/index.ts: strip ANSI escapes,
then collect all severities mentioned by the (case-insensitive) phrase
regex. -/
def extractRequiredUpdatesFromText (text : List Char) : SevSet :=
  scanUpdates (lowerL (stripAnsi text))

/-- Do the tokens of the success regex (semver|public|api) follow here? -/
def successTokens : List (List Char) :=
  ["semver".toList, "public".toList, "api".toList]

/-- Does a match of the success regex no\s+(semver|public|api) start at
the head of the (lowercased) text? -/
def successAt (l : List Char) : Bool :=
  match l with
  | 'n' :: 'o' :: rest =>
    !(rest.takeWhile isJsSpace).isEmpty &&
      successTokens.any (fun t => t.isPrefixOf (rest.dropWhile isJsSpace))
  | _ => false

/-- RegExp.prototype.test for the success regex: does a match start
anywhere in the text? -/
def successIn : List Char → Bool
  | [] => false
  | c :: rest => successAt (c :: rest) || successIn rest

/-- The CommandResult consumed by determineSemverType: exit status plus
captured stdout and stderr text. -/
structure CommandResult where
  status : Int
  stdout : List Char
  stderr : List Char

/-- The cleaned combined text of determineSemverType:
stripAnsi of stdout ++ "\n" ++ stderr, trimmed. -/
def combinedOf (r : CommandResult) : List Char :=
  trimL (stripAnsi (r.stdout ++ '\n' :: r.stderr))

/-- The message of the error thrown on unparseable output. -/
def unparseableMsg (combined : List Char) : List Char :=
  "cargo semver-checks failed to produce parseable output:\n".toList ++ combined

/-- determineSemverType from src/index.ts.  Fails when the exit status is
non-zero, no severity phrase was collected and the success phrase is
absent; otherwise returns the highest collected severity, defaulting to
patch. -/
def determineSemverType (r : CommandResult) : Except (List Char) SemverType :=
  let combined := combinedOf r
  let requiredUpdates := extractRequiredUpdatesFromText combined
  let hasUpdates := requiredUpdates.nonempty
  let successMessage := successIn (lowerL combined)
  if (r.status != 0) && !hasUpdates && !successMessage then
    .error (unparseableMsg combined)
  else if requiredUpdates.hasMajor then .ok .major
  else if requiredUpdates.hasMinor then .ok .minor
  else .ok .patch

/-! ## Retry policy -/

/-- A JavaScript error value as inspected by isRetryableError: an object
that may carry a numeric status field. -/
structure NetError where
  status : Option Int
deriving DecidableEq

/-- RETRYABLE_STATUS_CODES from src/index.ts. -/
def retryableStatusCodes : List Int := [502, 503, 504]

/-- isRetryableError from src/index.ts: the error must be an object whose
status field is truthy and belongs to the retryable set. -/
def isRetryableError (e : NetError) : Bool :=
  match e.status with
  | none => false
  | some s => (s != 0) && retryableStatusCodes.contains s

/-- The loop of withRetries, starting at a given attempt number with the
number of remaining loop iterations as structural fuel.  Returns the final
outcome together with the list of backoff delays (in milliseconds, the
argument of setTimeout) that were awaited before re-attempts. -/
def withRetriesFrom (op : Nat → Except NetError α) (maxAttempts : Nat) :
    Nat → Nat → Except NetError α × List Nat
  | _, 0 => (.error { status := none }, [])
  | attempt, fuel + 1 =>
    match op attempt with
    | .ok v => (.ok v, [])
    | .error e =>
      if maxAttempts ≤ attempt || !isRetryableError e then (.error e, [])
      else
        let next := withRetriesFrom op maxAttempts (attempt + 1) fuel
        (next.1, 1000 * attempt :: next.2)

/-- withRetries from src/index.ts with its default budget of 3 total
attempts, applied to an operation whose outcome may depend on the attempt
number. -/
def withRetries (op : Nat → Except NetError α) : Except NetError α × List Nat :=
  withRetriesFrom op 3 1 3

/-! ## Install pipeline -/

/-- Externally visible operations of the install pipeline, in order. -/
inductive InstallEvent
  | cargoVersionCheck
  | resolveLatest
  | downloadAttempt (n : Nat)
  | extractArchive
  | cargoInstall
deriving DecidableEq

/-- The environment of the install pipeline: results of the collaborator
operations it invokes.  downloadResult is indexed by how many download
attempts have been made so far, so that a retry (if one existed) would
observe the second entry. -/
structure InstallEnv where
  cargoAvailable : Bool
  hasTriple : Bool
  latestResult : Except NetError String
  downloadResult : Nat → Except NetError Unit
  extractOk : Bool
  cargoInstallOk : Bool

/-- installFromRelease from src/index.ts: resolve the latest version when
requested, download the release asset (exactly one httpsGet, with no
retry wrapper), then extract and copy the binary.  A failure is reported
to the caller as an error value. -/
def installFromRelease (env : InstallEnv) (version : String) :
    Except NetError Unit × List InstallEvent :=
  if !env.hasTriple then (.error { status := none }, [])
  else
    let (res, evs) :=
      if version == "latest" then
        match env.latestResult with
        | .error e => ((.error e : Except NetError Unit), [InstallEvent.resolveLatest])
        | .ok _ =>
          match env.downloadResult 1 with
          | .error e => (.error e, [InstallEvent.resolveLatest, InstallEvent.downloadAttempt 1])
          | .ok _ =>
            (if env.extractOk then .ok () else .error { status := none },
             [InstallEvent.resolveLatest, InstallEvent.downloadAttempt 1,
              InstallEvent.extractArchive])
      else
        match env.downloadResult 1 with
        | .error e => ((.error e : Except NetError Unit), [InstallEvent.downloadAttempt 1])
        | .ok _ =>
          (if env.extractOk then .ok () else .error { status := none },
           [InstallEvent.downloadAttempt 1, InstallEvent.extractArchive])
    (res, evs)

/-- installCargoSemverChecks from src/index.ts: check cargo, then try the
release binary when requested and a target triple exists; any failure of
that path is caught and falls back to cargo install (which is also the
path when no prebuilt binary exists or the release path is disabled). -/
def installCargoSemverChecks (env : InstallEnv) (version : String)
    (useReleaseBinary : Bool) : Except NetError Unit × List InstallEvent :=
  if !env.cargoAvailable then (.error { status := none }, [InstallEvent.cargoVersionCheck])
  else
    let pre : List InstallEvent := [InstallEvent.cargoVersionCheck]
    let cargoFallback : Except NetError Unit :=
      if env.cargoInstallOk then .ok () else .error { status := none }
    if useReleaseBinary && env.hasTriple then
      match installFromRelease env version with
      | (.ok _, tr) => (.ok (), pre ++ tr)
      | (.error _, tr) => (cargoFallback, pre ++ tr ++ [InstallEvent.cargoInstall])
    else
      (cargoFallback, pre ++ [InstallEvent.cargoInstall])

/-! ## PR context resolver -/

/-- A pull-request summary as delivered by the platform: number plus the
optional base commit sha. -/
structure PrSummary where
  number : Nat
  baseSha : Option String

/-- The payload of a direct pull_request event. -/
structure PullRequestPayload where
  number : Nat
  baseSha : Option String

/-- The payload of a workflow_run event. -/
structure WorkflowRunPayload where
  conclusion : Option String
  pullRequests : List PrSummary
  headOwnerLogin : Option String
  headOwnerName : Option String
  headBranch : Option String
  headSha : Option String

/-- The triggering event, github.context.eventName plus payload. -/
inductive Event
  | pullRequest (pr : Option PullRequestPayload)
  | workflowRun (run : Option WorkflowRunPayload)
  | other (name : String)

/-- A record of one platform lookup performed during resolution. -/
inductive LookupCall
  | byHead (head : String)
  | byCommit (sha : String)
  | getPr (n : Nat)
deriving DecidableEq

/-- The platform API capability hooks used by the resolver:
octokit.rest.pulls.list (by head "owner:branch"),
octokit.rest.repos.listPullRequestsAssociatedWithCommit, and
octokit.rest.pulls.get (returning the PR's base sha). -/
structure Hooks where
  pullsList : String → List PrSummary
  pullsAssociated : String → List PrSummary
  pullsGet : Nat → Option String

/-- The resolution outcome: skip with a reason, or proceed with a PR
number and base sha. -/
inductive PrContextResolution
  | skip (reason : String)
  | proceed (prNumber : Nat) (baseSha : String)
deriving DecidableEq

/-- The reason string of the skip result for a non-success conclusion. -/
def skipReason (conclusion : Option String) : String :=
  "workflow_run conclusion is " ++
    (if truthyStr conclusion then conclusion.getD "" else "unknown") ++
    "; skipping semver checks."

/-- The head ref "owner:branch" used for the branch lookup. -/
def headRefOf (w : WorkflowRunPayload) : String :=
  (jsOrStr w.headOwnerLogin w.headOwnerName).getD "" ++ ":" ++ w.headBranch.getD ""

/-- The final steps of the workflow_run branch (lines 482-499 of
src/index.ts): require a truthy PR number, fetch the PR by number when no
base sha is known yet, and require a truthy base sha. -/
def finishResolve (h : Hooks) (prNumber : Option Nat) (baseSha : Option String)
    (log : List LookupCall) : Except String (PrContextResolution × List LookupCall) :=
  if !truthyNat prNumber then
    .error "workflow_run pull_request is missing number."
  else if !truthyStr baseSha then
    if !truthyStr (jsOrStr (h.pullsGet (prNumber.getD 0)) none) then
      .error "Unable to determine the PR base SHA."
    else
      .ok (.proceed (prNumber.getD 0)
            ((jsOrStr (h.pullsGet (prNumber.getD 0)) none).getD ""),
          log ++ [LookupCall.getPr (prNumber.getD 0)])
  else
    .ok (.proceed (prNumber.getD 0) (baseSha.getD ""), log)

/-- The head-branch resolution stage for a run with zero correlated PRs:
when head owner and branch are both truthy, list open PRs for that head;
one result resolves the number (and possibly the base sha), more than one
is fatal, zero results fall through with the number still unknown. -/
def headStage (w : WorkflowRunPayload) (h : Hooks) :
    Except String (Option Nat × Option String × List LookupCall) :=
  if truthyStr (jsOrStr w.headOwnerLogin w.headOwnerName) && truthyStr w.headBranch then
    if (h.pullsList (headRefOf w)).length == 1 then
      .ok (((h.pullsList (headRefOf w)).head?).map PrSummary.number,
           jsOrStr (((h.pullsList (headRefOf w)).head?).bind PrSummary.baseSha)
             ((w.pullRequests.head?).bind PrSummary.baseSha),
           [LookupCall.byHead (headRefOf w)])
    else if 1 < (h.pullsList (headRefOf w)).length then
      .error ("Unable to resolve PR from head ref; found " ++
        toString (h.pullsList (headRefOf w)).length ++ ".")
    else
      .ok (none, (w.pullRequests.head?).bind PrSummary.baseSha,
        [LookupCall.byHead (headRefOf w)])
  else
    .ok (none, (w.pullRequests.head?).bind PrSummary.baseSha, [])

/-- The workflow_run branch of resolvePrContext. -/
def resolveWorkflowRun (w : WorkflowRunPayload) (h : Hooks) :
    Except String (PrContextResolution × List LookupCall) :=
  if w.conclusion != some "success" then
    .ok (.skip (skipReason w.conclusion), [])
  else if w.pullRequests.length == 1 then
    finishResolve h ((w.pullRequests.head?).map PrSummary.number)
      ((w.pullRequests.head?).bind PrSummary.baseSha) []
  else if w.pullRequests.length == 0 then
    match headStage w h with
    | .error m => .error m
    | .ok (prNumber, baseSha, log) =>
      if !truthyNat prNumber then
        if !truthyStr w.headSha then
          .error "workflow_run is missing head_sha."
        else if (h.pullsAssociated (w.headSha.getD "")).length != 1 then
          .error ("Unable to resolve PR from head_sha; found " ++
            toString (h.pullsAssociated (w.headSha.getD "")).length ++ ".")
        else
          finishResolve h
            (((h.pullsAssociated (w.headSha.getD "")).head?).map PrSummary.number)
            (jsOrStr (((h.pullsAssociated (w.headSha.getD "")).head?).bind
              PrSummary.baseSha) baseSha)
            (log ++ [LookupCall.byCommit (w.headSha.getD "")])
      else
        finishResolve h prNumber baseSha log
  else
    .error ("workflow_run must have exactly one pull request, found " ++
      toString w.pullRequests.length ++ ".")

/-- resolvePrContext from src/index.ts, with the platform client passed as
capability hooks and the performed lookups returned alongside the
resolution. -/
def resolvePrContext (ev : Event) (h : Hooks) :
    Except String (PrContextResolution × List LookupCall) :=
  match ev with
  | .pullRequest none => .error "Missing pull_request payload."
  | .pullRequest (some p) =>
    if truthyStr p.baseSha then .ok (.proceed p.number (p.baseSha.getD ""), [])
    else .error "Unable to determine the PR base SHA."
  | .workflowRun none => .error "Missing workflow_run payload."
  | .workflowRun (some w) => resolveWorkflowRun w h
  | .other name => .error ("Unsupported event type: " ++ name)

/-! ## Label reconciliation -/

/-- A platform API error with its optional HTTP status. -/
structure ApiError where
  status : Option Int
deriving DecidableEq

/-- A mutation performed against the platform during reconciliation. -/
inductive LabelOp
  | removeLabel (name : String)
  | createLabel (name color description : String)
  | addLabels (names : List String)
deriving DecidableEq

/-- removeLabelIfExists from src/index.ts, as a function of the outcome of
octokit.rest.issues.removeLabel: a 404 (label not attached) is swallowed,
any other error is rethrown. -/
def removeLabelIfExists (removeResult : Except ApiError Unit) : Except ApiError Unit :=
  match removeResult with
  | .ok _ => .ok ()
  | .error e => if e.status == some 404 then .ok () else .error e

/-- ensureLabelExists from src/index.ts, as a function of the outcomes of
octokit.rest.issues.getLabel and createLabel: an existing label is left
alone, a 404 lookup triggers creation with the fixed color and
description, any other lookup error is rethrown.  Returns the create
calls performed. -/
def ensureLabelExists (getResult : Except ApiError Unit)
    (createResult : Except ApiError Unit) (name : String) :
    Except ApiError (List LabelOp) :=
  match getResult with
  | .ok _ => .ok []
  | .error e =>
    if e.status == some 404 then
      match createResult with
      | .ok _ => .ok [LabelOp.createLabel name "ededed" "Semver required update"]
      | .error e2 => .error e2
    else
      .error e

/-- The platform state touched by label reconciliation: the labels on the
pull request and the labels defined in the repository. -/
structure RepoState where
  prLabels : List String
  repoLabels : List String
deriving DecidableEq

/-- Removal of a label from the pull request (all occurrences of the
name, since the platform keys labels by name). -/
def removeFromPr (st : RepoState) (name : String) : RepoState :=
  { st with prLabels := st.prLabels.filter (fun l => l != name) }

/-- The removal pass of upsertSemverLabel over the snapshot of existing
labels: every existing label that starts with the prefix and differs from
the new label is removed (removeLabelIfExists never fails here because a
missing label's 404 is swallowed). -/
def removePass (labelPfx newLabel : String) :
    List String → RepoState × List LabelOp → RepoState × List LabelOp
  | [], acc => acc
  | name :: rest, acc =>
    if jsStartsWith name labelPfx && name != newLabel then
      removePass labelPfx newLabel rest
        (removeFromPr acc.1 name, acc.2 ++ [LabelOp.removeLabel name])
    else
      removePass labelPfx newLabel rest acc

/-- The removal pass applied to the full snapshot, guarded by the
non-empty-prefix check of the source. -/
def removalStage (st : RepoState) (labelPfx newLabel : String) :
    RepoState × List LabelOp :=
  if labelPfx != "" then removePass labelPfx newLabel st.prLabels (st, [])
  else (st, [])

/-- upsertSemverLabel from src/index.ts over the platform state: list the
existing labels, remove the stale prefixed ones (only when the configured
prefix is non-empty), then — when the new label is not among the snapshot
of existing labels — ensure it exists repository-side (create on 404) and
add it to the pull request. -/
def upsertSemverLabel (st : RepoState) (labelPfx newLabel : String) :
    RepoState × List LabelOp :=
  if !st.prLabels.contains newLabel then
    if (removalStage st labelPfx newLabel).1.repoLabels.contains newLabel then
      ({ (removalStage st labelPfx newLabel).1 with
          prLabels := (removalStage st labelPfx newLabel).1.prLabels ++ [newLabel] },
       (removalStage st labelPfx newLabel).2 ++ [LabelOp.addLabels [newLabel]])
    else
      ({ prLabels := (removalStage st labelPfx newLabel).1.prLabels ++ [newLabel],
         repoLabels := (removalStage st labelPfx newLabel).1.repoLabels ++ [newLabel] },
       (removalStage st labelPfx newLabel).2 ++
         [LabelOp.createLabel newLabel "ededed" "Semver required update"] ++
         [LabelOp.addLabels [newLabel]])
  else
    removalStage st labelPfx newLabel

/-! ## Output-stream guards (src/stdio.ts) and the top-level boundary -/

/-- A JavaScript error value with its optional code, as inspected by
isEpipe. -/
structure JsError where
  code : Option String
deriving DecidableEq

/-- isEpipe from src/stdio.ts. -/
def isEpipe (e : JsError) : Bool := e.code == some "EPIPE"

/-- The mutable process-wide state of a wrapped stream: the streamBroken
guard plus the stream's own flags. -/
structure StreamState where
  broken : Bool
  destroyed : Bool
  writableEnded : Bool
  writable : Bool
deriving DecidableEq

/-- What the underlying stream.write would do for this call. -/
inductive WriteBehavior
  | returns (b : Bool)
  | throws (e : JsError)

/-- shouldSkipWrite from src/stdio.ts; returns the skip decision and the
possibly-updated guard state. -/
def shouldSkipWrite (st : StreamState) : Bool × StreamState :=
  if st.broken then (true, st)
  else if st.destroyed || st.writableEnded then (true, { st with broken := true })
  else (!st.writable, st)

/-- The wrapped stream.write installed by wrapStreamWrite: skip when the
guard says so, otherwise delegate; an EPIPE exception from the underlying
write is swallowed (returning false and marking the stream broken), any
other exception is rethrown. -/
def wrappedWrite (st : StreamState) (w : WriteBehavior) :
    StreamState × Except JsError Bool :=
  let skipSt := shouldSkipWrite st
  if skipSt.1 then (skipSt.2, .ok false)
  else
    match w with
    | .returns b => (skipSt.2, .ok b)
    | .throws e =>
      if isEpipe e then ({ skipSt.2 with broken := true }, .ok false)
      else (skipSt.2, .error e)

/-- The uncaughtException / unhandledRejection handlers of src/stdio.ts:
an EPIPE error is suppressed, anything else terminates the process. -/
inductive UncaughtOutcome
  | suppressed
  | fatalExit
deriving DecidableEq

/-- Behavior of the process-level handlers on an error value. -/
def uncaughtHandler (e : JsError) : UncaughtOutcome :=
  if isEpipe e then .suppressed else .fatalExit

/-- The top-level catch of run() in src/index.ts: the failure outcome is
recorded (core.setFailed) only when the message does not mention EPIPE. -/
def runBoundary (message : List Char) : Option (List Char) :=
  if containsL "EPIPE".toList message then none else some message

/-! ## Derived notions and concrete instances used by the theorems -/

/-- The severity set determineSemverType works with: the severities
extracted from the cleaned combined output of a command result. -/
def requiredUpdatesOf (r : CommandResult) : SevSet :=
  extractRequiredUpdatesFromText (combinedOf r)

/-- The success-phrase test of determineSemverType on a command result. -/
def successMessageOf (r : CommandResult) : Bool :=
  successIn (lowerL (combinedOf r))

/-- A text obtained from a base text by inserting complete ANSI color
escape sequences (ESC '[' body 'm' with body over [0-9;]) at arbitrary
positions between the base characters. -/
inductive AnsiInterleave : List Char → List Char → Prop
  | nil : AnsiInterleave [] []
  | keep {c : Char} {t u : List Char} : c ≠ escChar → AnsiInterleave t u →
      AnsiInterleave (c :: t) (c :: u)
  | seq {body t u : List Char} : (∀ c ∈ body, isAnsiBody c = true) →
      AnsiInterleave t u →
      AnsiInterleave (escChar :: '[' :: (body ++ 'm' :: t)) u

/-- First half of the classification counterexample input. -/
def cexA : List Char := "semver requires new \x1b[3\x1b[0".toList

/-- Second half of the classification counterexample input. -/
def cexB : List Char := "m1mmajor version".toList

/-- The complete ANSI escape sequence inserted between the halves. -/
def cexSeq : List Char := [escChar, '[', '2', 'm']

/-- The outcome before the ANSI insertion. -/
def cexPlain : CommandResult := ⟨0, cexA ++ cexB, []⟩

/-- The outcome after the ANSI insertion. -/
def cexEsc : CommandResult := ⟨0, cexA ++ cexSeq ++ cexB, []⟩

/-- A command result whose output mentions exactly one severity. -/
def rMinor : CommandResult := ⟨0, "semver requires new minor version".toList, []⟩

/-- A plain major-severity output with no escape characters. -/
def coreMajor : List Char := "semver requires new major version".toList

/-- The outcome with the plain major-severity output. -/
def rvPlain : CommandResult := ⟨0, coreMajor, []⟩

/-- The same outcome with the output wrapped in a color sequence and a
reset sequence. -/
def rvEsc : CommandResult :=
  ⟨0, escChar :: '[' :: (['3', '1'] ++ 'm' ::
    (coreMajor ++ (escChar :: '[' :: (['0'] ++ 'm' :: [])))), []⟩

/-- A failing command result with unparseable output. -/
def rErr : CommandResult := ⟨1, "garbage".toList, []⟩

/-- Hooks whose lookups all come back empty. -/
def hooksEmpty : Hooks := ⟨fun _ => [], fun _ => [], fun _ => none⟩

/-- Hooks that know the base sha of PR number 7. -/
def hooksGet7 : Hooks := ⟨fun _ => [], fun _ => [], fun n => if n == 7 then some "zzz" else none⟩

/-- A successful run with exactly one correlated PR. -/
def wRunOne : WorkflowRunPayload := ⟨some "success", [⟨7, some "abc"⟩], none, none, none, none⟩

/-- A successful run with one correlated PR that lacks its base sha. -/
def wRunOneNoSha : WorkflowRunPayload := ⟨some "success", [⟨7, none⟩], none, none, none, none⟩

/-- A failed upstream run. -/
def wRunFailed : WorkflowRunPayload := ⟨some "failure", [], none, none, none, none⟩

/-- An operation that fails with a retryable 503 on the first attempt and
succeeds on the second. -/
def opRetry503 : Nat → Except NetError Nat :=
  fun n => if n == 1 then .error ⟨some 503⟩ else .ok 7

/-- An install environment whose download fails with a 502 on the first
attempt and would succeed on a second one. -/
def envDownload502 : InstallEnv :=
  ⟨true, true, .ok "1.2.3", fun n => if n == 1 then .error ⟨some 502⟩ else .ok (),
   true, true⟩

/-- The states touched by the concrete label-reconciliation example. -/
def stLabelsEx : RepoState := ⟨["semver: major", "bug"], ["semver: major", "semver: patch", "bug"]⟩

/-- The state after reconciliation, used for the no-mutation example. -/
def stLabelsDone : RepoState := ⟨["semver: patch", "bug"], ["semver: major", "semver: patch", "bug"]⟩

/-- An EPIPE error object. -/
def epipeErr : JsError := ⟨some "EPIPE"⟩

/-- A healthy stream state. -/
def stHealthy : StreamState := ⟨false, false, false, true⟩

/-! ## Lemmas about the ANSI stripping pass -/

theorem stripAnsiGo_nil (n : Nat) : stripAnsiGo n [] = [] := by
  cases n <;> rfl

theorem stripAnsiGo_fuel (n : Nat) :
    ∀ (l : List Char) (m : Nat), l.length ≤ n → l.length ≤ m →
      stripAnsiGo n l = stripAnsiGo m l := by
  induction n with
  | zero =>
    intro l m hn _
    have hl : l = [] := List.eq_nil_of_length_eq_zero (Nat.le_zero.mp hn)
    subst hl
    rw [stripAnsiGo_nil, stripAnsiGo_nil]
  | succ n ih =>
    intro l m hn hm
    cases l with
    | nil => rw [stripAnsiGo_nil, stripAnsiGo_nil]
    | cons c rest =>
      cases m with
      | zero => simp at hm
      | succ m =>
        have hrest : rest.length ≤ n := by
          simp only [List.length_cons] at hn; omega
        have hrestm : rest.length ≤ m := by
          simp only [List.length_cons] at hm; omega
        simp only [stripAnsiGo]
        split
        · split
          · rename_i rest2
            have hlen2 : rest2.length ≤ n := by
              simp only [List.length_cons] at hrest; omega
            have hlen2m : rest2.length ≤ m := by
              simp only [List.length_cons] at hrestm; omega
            split
            · rename_i rest3 hd
              have hd3 : rest3.length ≤ rest2.length := by
                have hs := (rest2.dropWhile_sublist isAnsiBody).length_le
                rw [hd] at hs
                simp only [List.length_cons] at hs
                omega
              rw [ih rest3 m (le_trans hd3 hlen2) (le_trans hd3 hlen2m)]
            · rw [ih rest2 m hlen2 hlen2m]
          · rename_i hother
            rw [ih rest m hrest hrestm]
        · rw [ih rest m hrest hrestm]

theorem stripAnsiGo_eq_stripAnsi (n : Nat) (l : List Char) (h : l.length ≤ n) :
    stripAnsiGo n l = stripAnsi l :=
  stripAnsiGo_fuel n l l.length h le_rfl

theorem stripAnsi_nil : stripAnsi [] = [] := rfl

theorem stripAnsi_cons_of_ne {c : Char} (t : List Char) (hc : c ≠ escChar) :
    stripAnsi (c :: t) = c :: stripAnsi t := by
  show stripAnsiGo (t.length + 1) (c :: t) = c :: stripAnsi t
  simp only [stripAnsiGo, if_neg hc]
  rfl

theorem dropWhile_all_append {p : Char → Bool} {body : List Char} {y : Char}
    (t : List Char) (hall : ∀ c ∈ body, p c = true) (hy : p y = false) :
    (body ++ y :: t).dropWhile p = y :: t := by
  induction body with
  | nil => simp [List.dropWhile_cons, hy]
  | cons b bs ih =>
    have hb : p b = true := hall b (by simp)
    simp only [List.cons_append, List.dropWhile_cons, hb, if_true]
    exact ih fun c hc => hall c (by simp [hc])

theorem stripAnsi_seq {body : List Char} (t : List Char)
    (hall : ∀ c ∈ body, isAnsiBody c = true) :
    stripAnsi (escChar :: '[' :: (body ++ 'm' :: t)) = stripAnsi t := by
  show stripAnsiGo ((escChar :: '[' :: (body ++ 'm' :: t)).length)
      (escChar :: '[' :: (body ++ 'm' :: t)) = stripAnsi t
  have hlen : (escChar :: '[' :: (body ++ 'm' :: t)).length =
      body.length + t.length + 3 := by
    simp [List.length_append]
    omega
  rw [hlen]
  have hm : isAnsiBody 'm' = false := by decide
  show stripAnsiGo (body.length + t.length + 2 + 1)
      (escChar :: '[' :: (body ++ 'm' :: t)) = stripAnsi t
  simp only [stripAnsiGo, if_pos rfl, dropWhile_all_append t hall hm]
  exact stripAnsiGo_eq_stripAnsi _ t (by omega)

theorem stripAnsi_of_noEsc {l : List Char} (h : ∀ c ∈ l, c ≠ escChar) :
    stripAnsi l = l := by
  induction l with
  | nil => rfl
  | cons c rest ih =>
    rw [stripAnsi_cons_of_ne rest (h c (by simp)),
      ih fun c hc => h c (by simp [hc])]

/-! ## Lemmas about ANSI insertion -/

theorem AnsiInterleave.strip {t u : List Char} (h : AnsiInterleave t u) :
    stripAnsi t = u := by
  induction h with
  | nil => rfl
  | keep hc _ ih => rename_i c t' u' _; rw [stripAnsi_cons_of_ne t' hc, ih]
  | seq hall _ ih => rename_i body t' u' _; rw [stripAnsi_seq t' hall, ih]

theorem AnsiInterleave.refl {u : List Char} (h : ∀ c ∈ u, c ≠ escChar) :
    AnsiInterleave u u := by
  induction u with
  | nil => exact .nil
  | cons c rest ih =>
    exact .keep (h c (by simp)) (ih fun c hc => h c (by simp [hc]))

theorem AnsiInterleave.append {t u t' u' : List Char}
    (h1 : AnsiInterleave t u) (h2 : AnsiInterleave t' u') :
    AnsiInterleave (t ++ t') (u ++ u') := by
  induction h1 with
  | nil => simpa using h2
  | keep hc _ ih => exact .keep hc ih
  | seq hall _ ih =>
    rename_i body s v _
    have : escChar :: '[' :: (body ++ 'm' :: s) ++ t' =
        escChar :: '[' :: (body ++ 'm' :: (s ++ t')) := by
      simp
    rw [this]
    exact .seq hall ih

/-! ## Claim C8: ANSI insertion and classification -/

/-- C8 counterexample: cexPlain has stdout cexA ++ cexB and classifies as
major; cexEsc is obtained from it by inserting the single complete ANSI
escape sequence cexSeq (ESC '[' '2' 'm') between the two halves, with the
same exit status and stderr, yet classifies as patch.  Hence inserting an
ANSI escape sequence into stdout can change the classification result. -/
theorem determineSemverType_ansi_cex :
    cexPlain.stdout = cexA ++ cexB ∧
    cexEsc.stdout = cexA ++ (cexSeq ++ cexB) ∧
    cexEsc.status = cexPlain.status ∧
    cexEsc.stderr = cexPlain.stderr ∧
    cexSeq = escChar :: '[' :: (['2'] ++ 'm' :: []) ∧
    (∀ c ∈ ['2'], isAnsiBody c = true) ∧
    determineSemverType cexPlain = .ok .major ∧
    determineSemverType cexEsc = .ok .patch :=
  ⟨rfl, by simp [cexEsc], rfl, rfl, rfl, by decide, rfl, rfl⟩

/-- C8 (amended): for a process outcome whose stdout and stderr are free
of the ESC character, inserting complete ANSI color escape sequences
anywhere into stdout or stderr does not change the classification:
determineSemverType on the escaped outcome equals determineSemverType on
the unescaped one. -/
theorem determineSemverType_ansi_invariant (r r' : CommandResult)
    (hst : r'.status = r.status)
    (h1 : ∀ c ∈ r.stdout, c ≠ escChar)
    (h2 : ∀ c ∈ r.stderr, c ≠ escChar)
    (hi1 : AnsiInterleave r'.stdout r.stdout)
    (hi2 : AnsiInterleave r'.stderr r.stderr) :
    determineSemverType r' = determineSemverType r := by
  have hnl : ('\n' : Char) ≠ escChar := by decide
  have hfull : AnsiInterleave (r'.stdout ++ '\n' :: r'.stderr)
      (r.stdout ++ '\n' :: r.stderr) :=
    hi1.append (AnsiInterleave.keep hnl hi2)
  have hplain : ∀ c ∈ r.stdout ++ '\n' :: r.stderr, c ≠ escChar := by
    intro c hc
    rcases List.mem_append.mp hc with h | h
    · exact h1 c h
    · rcases List.mem_cons.mp h with h | h
      · subst h; exact hnl
      · exact h2 c h
  have hcomb : combinedOf r' = combinedOf r := by
    unfold combinedOf
    rw [hfull.strip, stripAnsi_of_noEsc hplain]
  unfold determineSemverType
  rw [hcomb, hst]

/-- Witness for the amended C8 theorem: wrapping the plain major-severity
output in a color sequence and a reset sequence classifies identically to
the plain output. -/
theorem determineSemverType_ansi_invariant_witness :
    determineSemverType rvEsc = determineSemverType rvPlain :=
  determineSemverType_ansi_invariant rvPlain rvEsc rfl (by decide) (by decide)
    (by
      show AnsiInterleave (escChar :: '[' :: (['3', '1'] ++ 'm' ::
        (coreMajor ++ (escChar :: '[' :: (['0'] ++ 'm' :: []))))) coreMajor
      refine .seq (by decide) ?_
      have h2 : AnsiInterleave (escChar :: '[' :: (['0'] ++ 'm' :: ([] : List Char))) [] :=
        .seq (by decide) .nil
      simpa using (AnsiInterleave.refl (u := coreMajor) (by decide)).append h2)
    .nil

/-! ## Claims C1 and C2: classification order and failure condition -/

theorem SevSet.mem_nonempty {s : SevSet} {t : SemverType} (h : s.mem t = true) :
    s.nonempty = true := by
  cases t <;> simp [SevSet.mem, SevSet.nonempty] at h ⊢ <;> simp [h]

theorem determineSemverType_eq (r : CommandResult) :
    determineSemverType r =
      (if ((r.status != 0) && !(requiredUpdatesOf r).nonempty &&
            !successMessageOf r) = true then
        Except.error (unparseableMsg (combinedOf r))
      else if (requiredUpdatesOf r).hasMajor = true then Except.ok SemverType.major
      else if (requiredUpdatesOf r).hasMinor = true then Except.ok SemverType.minor
      else Except.ok SemverType.patch) := rfl

/-- C1: whenever classification does not fail, determineSemverType
returns the highest-severity classification present in the extracted
severity set (under major > minor > patch), defaulting to patch on the
empty set; in particular a singleton set of severity S classifies as S,
and a set containing both major and minor classifies as major. -/
theorem determineSemverType_highest (r : CommandResult) :
    (∀ t, determineSemverType r = .ok t →
      ((requiredUpdatesOf r).nonempty = false → t = .patch) ∧
      ((requiredUpdatesOf r).nonempty = true →
        (requiredUpdatesOf r).mem t = true ∧
        ∀ t', (requiredUpdatesOf r).mem t' = true → sevRank t' ≤ sevRank t)) ∧
    (∀ t, (requiredUpdatesOf r).mem t = true →
      (∀ t', (requiredUpdatesOf r).mem t' = true → t' = t) →
      determineSemverType r = .ok t) ∧
    ((requiredUpdatesOf r).hasMajor = true → (requiredUpdatesOf r).hasMinor = true →
      determineSemverType r = .ok .major) := by
  refine ⟨?_, ?_, ?_⟩
  · intro t ht
    rw [determineSemverType_eq] at ht
    split at ht
    · cases ht
    · split at ht
      · rename_i hMa
        cases ht
        constructor
        · intro hne
          rw [SevSet.mem_nonempty (t := .major) hMa] at hne
          cases hne
        · intro _
          refine ⟨hMa, ?_⟩
          intro t' _
          cases t' <;> simp [sevRank]
      · split at ht
        · rename_i hMa hMi
          cases ht
          constructor
          · intro hne
            rw [SevSet.mem_nonempty (t := .minor) hMi] at hne
            cases hne
          · intro _
            refine ⟨hMi, ?_⟩
            intro t' ht'
            cases t'
            · exact absurd ht' (by simpa [SevSet.mem] using hMa)
            · exact le_rfl
            · simp [sevRank]
        · rename_i hMa hMi
          cases ht
          constructor
          · intro _; rfl
          · intro hne
            refine ⟨?_, ?_⟩
            · simp only [SevSet.mem]
              simp only [SevSet.nonempty, Bool.not_eq_true] at hMa hMi
              simpa [SevSet.nonempty, hMa, hMi] using hne
            · intro t' ht'
              cases t'
              · exact absurd ht' (by simpa [SevSet.mem] using hMa)
              · exact absurd ht' (by simpa [SevSet.mem] using hMi)
              · exact le_rfl
  · intro t hmem huniq
    have hne : (requiredUpdatesOf r).nonempty = true := SevSet.mem_nonempty hmem
    rw [determineSemverType_eq]
    rw [if_neg (by simp [hne])]
    cases t
    · rw [if_pos (show (requiredUpdatesOf r).hasMajor = true from hmem)]
    · have hMa : (requiredUpdatesOf r).hasMajor = false := by
        by_contra h
        have := huniq .major (by simpa [SevSet.mem] using
          (Bool.not_eq_false _).mp h)
        cases this
      rw [if_neg (by simp [hMa]),
        if_pos (show (requiredUpdatesOf r).hasMinor = true from hmem)]
    · have hMa : (requiredUpdatesOf r).hasMajor = false := by
        by_contra h
        have := huniq .major (by simpa [SevSet.mem] using
          (Bool.not_eq_false _).mp h)
        cases this
      have hMi : (requiredUpdatesOf r).hasMinor = false := by
        by_contra h
        have := huniq .minor (by simpa [SevSet.mem] using
          (Bool.not_eq_false _).mp h)
        cases this
      rw [if_neg (by simp [hMa]), if_neg (by simp [hMi])]
  · intro hMa _
    have hne : (requiredUpdatesOf r).nonempty = true :=
      SevSet.mem_nonempty (t := .major) hMa
    rw [determineSemverType_eq, if_neg (by simp [hne]), if_pos hMa]

/-- Witness for C1: an output whose extracted set is the singleton
containing minor classifies as minor. -/
theorem determineSemverType_highest_witness :
    determineSemverType rMinor = .ok .minor :=
  (determineSemverType_highest rMinor).2.1 .minor (by decide)
    (by intro t'; cases t' <;> decide)

/-- C2: determineSemverType fails, carrying the cleaned combined text,
exactly when the exit status is non-zero, the extracted severity set is
empty and the cleaned text does not match the success phrase; in every
other case it returns a classification. -/
theorem determineSemverType_error_iff (r : CommandResult) :
    (determineSemverType r = .error (unparseableMsg (combinedOf r)) ↔
      (r.status ≠ 0 ∧ (requiredUpdatesOf r).nonempty = false ∧
        successMessageOf r = false)) ∧
    (∀ e, determineSemverType r = .error e → e = unparseableMsg (combinedOf r)) ∧
    (¬(r.status ≠ 0 ∧ (requiredUpdatesOf r).nonempty = false ∧
        successMessageOf r = false) →
      ∃ t, determineSemverType r = .ok t) := by
  have hcond : ((r.status != 0) && !(requiredUpdatesOf r).nonempty &&
      !successMessageOf r) = true ↔
      (r.status ≠ 0 ∧ (requiredUpdatesOf r).nonempty = false ∧
        successMessageOf r = false) := by
    simp [Bool.and_eq_true, bne_iff_ne, Bool.not_eq_true', and_assoc]
  refine ⟨?_, ?_, ?_⟩
  · constructor
    · intro h
      rw [determineSemverType_eq] at h
      split at h
      · rename_i hc; exact hcond.mp hc
      · split at h
        · cases h
        · split at h
          · cases h
          · cases h
    · intro h
      rw [determineSemverType_eq, if_pos (hcond.mpr h)]
  · intro e he
    rw [determineSemverType_eq] at he
    split at he
    · cases he; rfl
    · split at he
      · cases he
      · split at he
        · cases he
        · cases he
  · intro h
    rw [determineSemverType_eq, if_neg (fun hc => h (hcond.mp hc))]
    split
    · exact ⟨_, rfl⟩
    · split
      · exact ⟨_, rfl⟩
      · exact ⟨_, rfl⟩

/-- Witness for C2: a non-zero exit status with unparseable output fails
with the cleaned text, and the success phrase prevents the failure even
with a non-zero status. -/
theorem determineSemverType_error_iff_witness :
    determineSemverType rErr = .error (unparseableMsg (combinedOf rErr)) :=
  (determineSemverType_error_iff rErr).1.mpr (by refine ⟨by decide, by decide, by decide⟩)

/-! ## Lemmas about substring containment -/

theorem isPrefixOf_self_append (n b : List Char) : n.isPrefixOf (n ++ b) = true := by
  induction n with
  | nil => cases b <;> rfl
  | cons c rest ih => simpa [List.isPrefixOf] using ih

theorem containsL_infix (a n b : List Char) : containsL n (a ++ (n ++ b)) = true := by
  induction a with
  | nil =>
    have hp := isPrefixOf_self_append n b
    rw [List.nil_append]
    cases hn : n ++ b with
    | nil =>
      have hnnil : n = [] := by
        cases n with
        | nil => rfl
        | cons x xs => simp at hn
      subst hnnil
      rw [List.nil_append] at hn
      subst hn
      rfl
    | cons c rest =>
      rw [hn] at hp
      simp [containsL, hp]
  | cons c rest ih =>
    simp only [List.cons_append, containsL, List.append_eq]
    rw [ih]
    simp

/-! ## Claim C4: non-success runs skip without lookups -/

/-- C4: a workflow_run event whose conclusion is not success resolves to
Skip, with an empty lookup log, and the skip reason names the observed
conclusion (or "unknown" when the conclusion is absent). -/
theorem resolvePrContext_skip_nonSuccess (w : WorkflowRunPayload) (h : Hooks)
    (hc : w.conclusion ≠ some "success") :
    resolvePrContext (.workflowRun (some w)) h =
      .ok (.skip (skipReason w.conclusion), []) ∧
    (∀ c, w.conclusion = some c → c ≠ "" →
      containsL c.toList (skipReason w.conclusion).toList = true) ∧
    (w.conclusion = none →
      containsL "unknown".toList (skipReason w.conclusion).toList = true) := by
  refine ⟨?_, ?_, ?_⟩
  · show resolveWorkflowRun w h = _
    unfold resolveWorkflowRun
    rw [if_pos (by simpa [bne_iff_ne] using hc)]
  · intro c hcc hce
    rw [hcc]
    have htr : truthyStr (some c) = true := by simpa [truthyStr] using hce
    show containsL c.toList
      ("workflow_run conclusion is " ++
        (if truthyStr (some c) then (some c).getD "" else "unknown") ++
        "; skipping semver checks.").toList = true
    rw [htr]
    show containsL c.toList
      ("workflow_run conclusion is ".toList ++ c.toList ++
        "; skipping semver checks.".toList) = true
    rw [List.append_assoc]
    exact containsL_infix _ _ _
  · intro hcc
    rw [hcc]
    decide

/-- Witness for C4: a run that concluded with failure skips with the
reason naming that conclusion and performs no lookups. -/
theorem resolvePrContext_skip_nonSuccess_witness :
    resolvePrContext (.workflowRun (some wRunFailed)) hooksEmpty =
      .ok (.skip (skipReason wRunFailed.conclusion), []) :=
  (resolvePrContext_skip_nonSuccess wRunFailed hooksEmpty (by decide)).1

/-! ## Claim C5: the Proceed invariant -/

theorem truthyStr_some (s : String) : truthyStr (some s) = (s != "") := rfl

theorem truthyStr_none : truthyStr none = false := rfl

theorem truthyNat_some (k : Nat) : truthyNat (some k) = (k != 0) := rfl

theorem truthyNat_none : truthyNat none = false := rfl

theorem jsOrStr_pos {a : Option String} (b : Option String)
    (h : truthyStr a = true) : jsOrStr a b = a := by
  simp [jsOrStr, h]

theorem jsOrStr_neg {a : Option String} (b : Option String)
    (h : truthyStr a = false) : jsOrStr a b = b := by
  simp [jsOrStr, h]

theorem truthyNat_pos {pn : Option Nat} (h : truthyNat pn = true) : 0 < pn.getD 0 := by
  cases pn with
  | none => simp [truthyNat] at h
  | some k =>
    simp only [truthyNat, bne_iff_ne, ne_eq] at h
    simpa using Nat.pos_of_ne_zero h

theorem truthyStr_ne {s : Option String} (h : truthyStr s = true) : s.getD "" ≠ "" := by
  cases s with
  | none => simp [truthyStr] at h
  | some v => simpa [truthyStr] using h

theorem finishResolve_proceed {h : Hooks} {pn : Option Nat} {bs : Option String}
    {log lg : List LookupCall} {n : Nat} {sha : String}
    (he : finishResolve h pn bs log = .ok (.proceed n sha, lg)) :
    0 < n ∧ sha ≠ "" := by
  unfold finishResolve at he
  split at he
  · cases he
  · rename_i hpn
    have hpn' : truthyNat pn = true := by simpa using hpn
    split at he
    · split at he
      · cases he
      · rename_i hfet
        have hfet' : truthyStr (jsOrStr (h.pullsGet (pn.getD 0)) none) = true := by
          simpa using hfet
        simp only [Except.ok.injEq, Prod.mk.injEq,
          PrContextResolution.proceed.injEq] at he
        obtain ⟨⟨hn, hsha⟩, -⟩ := he
        exact ⟨hn ▸ truthyNat_pos hpn', hsha ▸ truthyStr_ne hfet'⟩
    · rename_i hbs
      have hbs' : truthyStr bs = true := by simpa using hbs
      simp only [Except.ok.injEq, Prod.mk.injEq,
        PrContextResolution.proceed.injEq] at he
      obtain ⟨⟨hn, hsha⟩, -⟩ := he
      exact ⟨hn ▸ truthyNat_pos hpn', hsha ▸ truthyStr_ne hbs'⟩

theorem resolveWorkflowRun_proceed {w : WorkflowRunPayload} {h : Hooks}
    {n : Nat} {sha : String} {lg : List LookupCall}
    (he : resolveWorkflowRun w h = .ok (.proceed n sha, lg)) :
    0 < n ∧ sha ≠ "" := by
  unfold resolveWorkflowRun at he
  split at he
  · simp at he
  · split at he
    · exact finishResolve_proceed he
    · split at he
      · split at he
        · simp at he
        · split at he
          · split at he
            · simp at he
            · split at he
              · simp at he
              · exact finishResolve_proceed he
          · exact finishResolve_proceed he
      · simp at he

/-- C5: every Proceed result of resolvePrContext carries a positive PR
number and a non-empty base commit string; when the single correlated PR
of a successful run lacks its base sha, the PR is fetched by number
(logged as a getPr lookup), and when that fetch yields no truthy sha the
resolver fails with the missing-base-commit error. -/
theorem resolvePrContext_proceed_invariant (ev : Event) (h : Hooks)
    (hwf : ∀ p, ev = .pullRequest (some p) → 0 < p.number) :
    (∀ n sha lg, resolvePrContext ev h = .ok (.proceed n sha, lg) →
      0 < n ∧ sha ≠ "") ∧
    (∀ w p, ev = .workflowRun (some w) → w.conclusion = some "success" →
      w.pullRequests = [p] → p.number ≠ 0 → truthyStr p.baseSha = false →
      ((∀ s, h.pullsGet p.number = some s → s ≠ "" →
        resolvePrContext ev h =
          .ok (.proceed p.number s, [LookupCall.getPr p.number])) ∧
       (truthyStr (h.pullsGet p.number) = false →
        resolvePrContext ev h = .error "Unable to determine the PR base SHA."))) := by
  constructor
  · intro n sha lg he
    match ev with
    | .pullRequest none => simp [resolvePrContext] at he
    | .pullRequest (some p) =>
      rw [resolvePrContext] at he
      split at he
      · rename_i hbs
        have hbs' : truthyStr p.baseSha = true := by simpa using hbs
        rw [Except.ok.injEq, Prod.mk.injEq] at he
        obtain ⟨hn, hsha⟩ := PrContextResolution.proceed.inj he.1
        exact ⟨hn ▸ hwf p rfl, hsha ▸ truthyStr_ne hbs'⟩
      · simp at he
    | .workflowRun none => simp [resolvePrContext] at he
    | .workflowRun (some w) => exact resolveWorkflowRun_proceed he
    | .other name => simp [resolvePrContext] at he
  · intro w p hev hconc hprs hnum hbs
    subst hev
    have hlen : w.pullRequests.length == 1 := by rw [hprs]; rfl
    have hntr : truthyNat (some p.number) = true := by
      simpa [truthyNat] using hnum
    constructor
    · intro s hget hs
      show resolveWorkflowRun w h = _
      simp [resolveWorkflowRun, finishResolve, hconc, hprs, hnum, hbs, hget, hs,
        truthyNat_some, truthyStr_some, truthyStr_none, jsOrStr]
    · intro hfet
      show resolveWorkflowRun w h = _
      simp [resolveWorkflowRun, finishResolve, hconc, hprs, hnum, hbs, hfet,
        truthyNat_some, truthyStr_some, truthyStr_none, jsOrStr]

/-! ## Claim C3: correlated-PR case analysis -/

/-- C3: for a successful workflow_run event, exactly one correlated PR is
used directly; more than one is fatal; with zero correlated PRs a
head-branch lookup (when the head owner and branch are truthy) returning
exactly one PR resolves it, more than one is fatal, and zero results fall
through to the commit-association lookup, which requires a head commit id
and is fatal unless it returns exactly one PR. -/
theorem resolvePrContext_workflowRun_cases (w : WorkflowRunPayload) (h : Hooks)
    (hconc : w.conclusion = some "success") :
    (∀ p, w.pullRequests = [p] → p.number ≠ 0 → truthyStr p.baseSha = true →
      resolvePrContext (.workflowRun (some w)) h =
        .ok (.proceed p.number (p.baseSha.getD ""), [])) ∧
    (1 < w.pullRequests.length →
      resolvePrContext (.workflowRun (some w)) h =
        .error ("workflow_run must have exactly one pull request, found " ++
          toString w.pullRequests.length ++ ".")) ∧
    (∀ q, w.pullRequests = [] →
      truthyStr (jsOrStr w.headOwnerLogin w.headOwnerName) = true →
      truthyStr w.headBranch = true →
      h.pullsList (headRefOf w) = [q] → q.number ≠ 0 → truthyStr q.baseSha = true →
      resolvePrContext (.workflowRun (some w)) h =
        .ok (.proceed q.number (q.baseSha.getD ""),
          [LookupCall.byHead (headRefOf w)])) ∧
    (w.pullRequests = [] →
      truthyStr (jsOrStr w.headOwnerLogin w.headOwnerName) = true →
      truthyStr w.headBranch = true →
      1 < (h.pullsList (headRefOf w)).length →
      resolvePrContext (.workflowRun (some w)) h =
        .error ("Unable to resolve PR from head ref; found " ++
          toString (h.pullsList (headRefOf w)).length ++ ".")) ∧
    (w.pullRequests = [] →
      ((truthyStr (jsOrStr w.headOwnerLogin w.headOwnerName) &&
          truthyStr w.headBranch) = false ∨ h.pullsList (headRefOf w) = []) →
      ((truthyStr w.headSha = false →
        resolvePrContext (.workflowRun (some w)) h =
          .error "workflow_run is missing head_sha.") ∧
       (∀ sha, w.headSha = some sha → sha ≠ "" →
        (h.pullsAssociated sha).length ≠ 1 →
        resolvePrContext (.workflowRun (some w)) h =
          .error ("Unable to resolve PR from head_sha; found " ++
            toString (h.pullsAssociated sha).length ++ ".")) ∧
       (∀ sha q, w.headSha = some sha → sha ≠ "" →
        h.pullsAssociated sha = [q] → q.number ≠ 0 → truthyStr q.baseSha = true →
        resolvePrContext (.workflowRun (some w)) h =
          .ok (.proceed q.number (q.baseSha.getD ""),
            (if (truthyStr (jsOrStr w.headOwnerLogin w.headOwnerName) &&
                  truthyStr w.headBranch) = true
             then [LookupCall.byHead (headRefOf w)] else []) ++
              [LookupCall.byCommit sha])))) := by
  refine ⟨?_, ?_, ?_, ?_, ?_⟩
  · intro p hprs hnum hsha
    show resolveWorkflowRun w h = _
    simp [resolveWorkflowRun, finishResolve, hconc, hprs, hnum, hsha,
      truthyNat_some, truthyStr_some, truthyStr_none]
  · intro hlen
    have hne1 : (w.pullRequests.length == 1) = false := by
      simp only [beq_eq_false_iff_ne, ne_eq]; omega
    have hne0 : (w.pullRequests.length == 0) = false := by
      simp only [beq_eq_false_iff_ne, ne_eq]; omega
    show resolveWorkflowRun w h = _
    simp [resolveWorkflowRun, hconc, hne1, hne0]
  · intro q hprs hA hB hlist hqnum hqsha
    show resolveWorkflowRun w h = _
    simp [resolveWorkflowRun, headStage, finishResolve, hconc, hprs, hA, hB,
      hlist, hqnum, hqsha, truthyNat_some, truthyStr_some, truthyStr_none,
      jsOrStr_pos]
  · intro hprs hA hB hlen
    have hne1 : ((h.pullsList (headRefOf w)).length == 1) = false := by
      simp only [beq_eq_false_iff_ne, ne_eq]; omega
    show resolveWorkflowRun w h = _
    simp [resolveWorkflowRun, headStage, hconc, hprs, hA, hB, hne1, hlen]
  · intro hprs hOr
    have hstage : ∃ log, headStage w h =
        .ok (none, (w.pullRequests.head?).bind PrSummary.baseSha, log) ∧
        (log = if (truthyStr (jsOrStr w.headOwnerLogin w.headOwnerName) &&
            truthyStr w.headBranch) = true
          then [LookupCall.byHead (headRefOf w)] else []) := by
      rcases hOr with hcond | hnil
      · refine ⟨[], ?_, by rw [hcond]; rfl⟩
        unfold headStage
        rw [if_neg (by simp [hcond])]
      · by_cases hcond : (truthyStr (jsOrStr w.headOwnerLogin w.headOwnerName) &&
            truthyStr w.headBranch) = true
        · refine ⟨[LookupCall.byHead (headRefOf w)], ?_, by rw [if_pos hcond]⟩
          unfold headStage
          rw [if_pos hcond]
          simp [hnil]
        · refine ⟨[], ?_, by rw [if_neg hcond]⟩
          unfold headStage
          rw [if_neg hcond]
    obtain ⟨log, hstage, hlog⟩ := hstage
    rw [hprs] at hstage
    simp only [List.head?_nil, Option.bind_eq_bind, Option.none_bind] at hstage
    refine ⟨?_, ?_, ?_⟩
    · intro hsf
      show resolveWorkflowRun w h = _
      simp [resolveWorkflowRun, hconc, hprs, hstage, hsf, truthyNat_none]
    · intro sha hsha hshane hlen
      have hne1 : ((h.pullsAssociated sha).length != 1) = true := by
        simpa using hlen
      show resolveWorkflowRun w h = _
      simp [resolveWorkflowRun, hconc, hprs, hstage, hsha, hshane, hne1,
        truthyNat_none, truthyStr_some]
    · intro sha q hsha hshane hassoc hqnum hqsha
      show resolveWorkflowRun w h = _
      simp [resolveWorkflowRun, finishResolve, hconc, hprs, hstage, hsha,
        hshane, hassoc, hqnum, hqsha, truthyNat_none, truthyNat_some,
        truthyStr_some, truthyStr_none, jsOrStr_pos, hlog]

/-- Witness for C3: a successful run with the single correlated PR number
7 and base sha "abc" resolves directly with no lookups. -/
theorem resolvePrContext_workflowRun_cases_witness :
    resolvePrContext (.workflowRun (some wRunOne)) hooksEmpty =
      .ok (.proceed 7 "abc", []) :=
  (resolvePrContext_workflowRun_cases wRunOne hooksEmpty rfl).1
    ⟨7, some "abc"⟩ rfl (by decide) (by decide)

/-- Witness for C5: the correlated PR number 7 without a base sha is
resolved by fetching the PR, yielding a positive number and a non-empty
sha. -/
theorem resolvePrContext_proceed_invariant_witness :
    resolvePrContext (.workflowRun (some wRunOneNoSha)) hooksGet7 =
      .ok (.proceed 7 "zzz", [LookupCall.getPr 7]) :=
  ((resolvePrContext_proceed_invariant (.workflowRun (some wRunOneNoSha)) hooksGet7
      (by intro p hp; simp at hp)).2 wRunOneNoSha ⟨7, none⟩ rfl rfl rfl
      (by decide) (by decide)).1 "zzz" rfl (by decide)

/-! ## Claim C6: retry policy -/

/-- C6 counterexample: the binary download is not wrapped in the retry
policy.  In an environment whose download fails with a retryable 502 on
the first attempt and would succeed on a second attempt, the install
pipeline performs exactly one download attempt and falls back to cargo
install; no second download attempt happens. -/
theorem install_download_not_retried_cex :
    isRetryableError ⟨some 502⟩ = true ∧
    envDownload502.downloadResult 1 = .error ⟨some 502⟩ ∧
    envDownload502.downloadResult 2 = .ok () ∧
    installCargoSemverChecks envDownload502 "latest" true =
      (.ok (), [InstallEvent.cargoVersionCheck, InstallEvent.resolveLatest,
        InstallEvent.downloadAttempt 1, InstallEvent.cargoInstall]) ∧
    (installCargoSemverChecks envDownload502 "latest" true).2.count
      (InstallEvent.downloadAttempt 2) = 0 :=
  ⟨rfl, rfl, rfl, rfl, rfl⟩

/-- C6 (amended): isRetryableError accepts exactly the statuses 502, 503
and 504; withRetries (which wraps the two platform interactions, PR
context resolution and label application) retries a qualifying failure
after a linear backoff of 1000 * attempt milliseconds up to 3 total
attempts, and propagates a non-qualifying or final-attempt failure
immediately; the binary download itself is attempted once per install,
with any failure falling back to cargo install. -/
theorem withRetries_policy :
    (∀ e : NetError, isRetryableError e = true ↔
      (e.status = some 502 ∨ e.status = some 503 ∨ e.status = some 504)) ∧
    (∀ (α : Type) (op : Nat → Except NetError α) (v : α),
      op 1 = .ok v → withRetries op = (.ok v, [])) ∧
    (∀ (α : Type) (op : Nat → Except NetError α) (e : NetError),
      op 1 = .error e → isRetryableError e = false →
      withRetries op = (.error e, [])) ∧
    (∀ (α : Type) (op : Nat → Except NetError α) (e : NetError) (v : α),
      op 1 = .error e → isRetryableError e = true → op 2 = .ok v →
      withRetries op = (.ok v, [1000 * 1])) ∧
    (∀ (α : Type) (op : Nat → Except NetError α) (e1 e2 : NetError),
      op 1 = .error e1 → isRetryableError e1 = true →
      op 2 = .error e2 → isRetryableError e2 = false →
      withRetries op = (.error e2, [1000 * 1])) ∧
    (∀ (α : Type) (op : Nat → Except NetError α) (e1 e2 : NetError),
      op 1 = .error e1 → isRetryableError e1 = true →
      op 2 = .error e2 → isRetryableError e2 = true →
      withRetries op = (op 3, [1000 * 1, 1000 * 2])) ∧
    (∀ (env : InstallEnv) (s : String) (e : NetError),
      env.cargoAvailable = true → env.hasTriple = true →
      env.latestResult = .ok s → env.downloadResult 1 = .error e →
      installCargoSemverChecks env "latest" true =
        ((if env.cargoInstallOk then .ok () else .error ⟨none⟩),
         [InstallEvent.cargoVersionCheck, InstallEvent.resolveLatest,
          InstallEvent.downloadAttempt 1, InstallEvent.cargoInstall])) := by
  refine ⟨?_, ?_, ?_, ?_, ?_, ?_, ?_⟩
  · intro e
    cases e with
    | mk st =>
      cases st with
      | none => simp [isRetryableError]
      | some s =>
        have hmem : ([(502 : Int), 503, 504].contains s = true) ↔
            (s = 502 ∨ s = 503 ∨ s = 504) := by simp
        simp only [isRetryableError, retryableStatusCodes, Bool.and_eq_true,
          bne_iff_ne, ne_eq, Option.some.injEq, hmem]
        constructor
        · rintro ⟨-, h⟩; exact h
        · rintro (h | h | h) <;> subst h <;> simp
  · intro α op v h1
    simp [withRetries, withRetriesFrom, h1]
  · intro α op e h1 hr
    simp [withRetries, withRetriesFrom, h1, hr]
  · intro α op e v h1 hr h2
    simp [withRetries, withRetriesFrom, h1, hr, h2]
  · intro α op e1 e2 h1 hr1 h2 hr2
    simp [withRetries, withRetriesFrom, h1, hr1, h2, hr2]
  · intro α op e1 e2 h1 hr1 h2 hr2
    cases h3 : op 3 <;>
      simp [withRetries, withRetriesFrom, h1, hr1, h2, hr2, h3]
  · intro env s e hca ht hl hd
    simp [installCargoSemverChecks, installFromRelease, hca, ht, hl, hd]

/-- Witness for the amended C6 theorem: an operation failing with a 503
on the first attempt and succeeding on the second is retried once after a
one-second backoff. -/
theorem withRetries_policy_witness :
    withRetries opRetry503 = (.ok 7, [1000 * 1]) :=
  withRetries_policy.2.2.2.1 Nat opRetry503 ⟨some 503⟩ 7 rfl rfl rfl

/-! ## Claim C9: EPIPE suppression -/

/-- C9: a broken-pipe condition never surfaces: the wrapped stream write
swallows an EPIPE exception (returning ok false instead of rethrowing),
the process-level handlers suppress EPIPE, and the top-level boundary
records a failure outcome only for messages that do not mention EPIPE. -/
theorem epipe_suppressed :
    (∀ (st : StreamState) (e : JsError), isEpipe e = true →
      (wrappedWrite st (.throws e)).2 = .ok false) ∧
    (∀ e : JsError, isEpipe e = true → uncaughtHandler e = .suppressed) ∧
    (∀ msg : List Char, containsL "EPIPE".toList msg = true →
      runBoundary msg = none) ∧
    (∀ msg : List Char, containsL "EPIPE".toList msg = false →
      runBoundary msg = some msg) := by
  refine ⟨?_, ?_, ?_, ?_⟩
  · intro st e he
    rcases hs : shouldSkipWrite st with ⟨skip, st2⟩
    cases skip <;> simp [wrappedWrite, hs, he]
  · intro e he
    simp [uncaughtHandler, he]
  · intro msg hm
    have hm' : containsL ['E', 'P', 'I', 'P', 'E'] msg = true := hm
    simp [runBoundary, hm']
  · intro msg hm
    have hm' : containsL ['E', 'P', 'I', 'P', 'E'] msg = false := hm
    simp [runBoundary, hm']

/-- Witness for C9: an EPIPE exception thrown by a healthy stream's write
is swallowed, and a message mentioning EPIPE is not recorded as the
failure reason. -/
theorem epipe_suppressed_witness :
    (wrappedWrite stHealthy (.throws epipeErr)).2 = .ok false :=
  epipe_suppressed.1 stHealthy epipeErr rfl

/-! ## Claim C10: 404 is never fatal during label reconciliation -/

/-- C10: removing a label that is not attached succeeds silently (the 404
is swallowed), a 404 from the label lookup causes creation with the fixed
color and description, and any error with a status other than 404
propagates unchanged from both helpers. -/
theorem label_api_404_handling :
    (∀ e : ApiError, e.status = some 404 →
      removeLabelIfExists (.error e) = .ok ()) ∧
    (removeLabelIfExists (.ok ()) = .ok ()) ∧
    (∀ e : ApiError, e.status ≠ some 404 →
      removeLabelIfExists (.error e) = .error e) ∧
    (∀ (name : String) (cr : Except ApiError Unit),
      ensureLabelExists (.ok ()) cr name = .ok []) ∧
    (∀ (e : ApiError) (name : String), e.status = some 404 →
      ensureLabelExists (.error e) (.ok ()) name =
        .ok [LabelOp.createLabel name "ededed" "Semver required update"]) ∧
    (∀ (e : ApiError) (name : String) (cr : Except ApiError Unit),
      e.status ≠ some 404 →
      ensureLabelExists (.error e) cr name = .error e) := by
  refine ⟨?_, rfl, ?_, ?_, ?_, ?_⟩
  · intro e he
    simp [removeLabelIfExists, he]
  · intro e he
    simp [removeLabelIfExists, he]
  · intro name cr
    simp [ensureLabelExists]
  · intro e name he
    simp [ensureLabelExists, he]
  · intro e name cr he
    simp [ensureLabelExists, he]

/-- Witness for C10: a 404 on removal is swallowed and a 404 on lookup
creates the label with the fixed color and description. -/
theorem label_api_404_handling_witness :
    removeLabelIfExists (.error ⟨some 404⟩) = .ok () :=
  label_api_404_handling.1 ⟨some 404⟩ rfl

/-! ## Claim C7: label reconciliation -/

theorem removePass_repoLabels (labelPfx newLabel : String) :
    ∀ (l : List String) (st : RepoState) (ops : List LabelOp),
      (removePass labelPfx newLabel l (st, ops)).1.repoLabels = st.repoLabels := by
  intro l
  induction l with
  | nil => intro st ops; rfl
  | cons a rest ih =>
    intro st ops
    by_cases ha : (jsStartsWith a labelPfx && a != newLabel) = true
    · simp only [removePass]
      rw [if_pos ha, ih]
      rfl
    · simp only [removePass]
      rw [if_neg ha, ih]

theorem removePass_ops (labelPfx newLabel : String) :
    ∀ (l : List String) (st : RepoState) (ops : List LabelOp),
      (removePass labelPfx newLabel l (st, ops)).2 =
        ops ++ (l.filter
          (fun n => jsStartsWith n labelPfx && n != newLabel)).map LabelOp.removeLabel := by
  intro l
  induction l with
  | nil => intro st ops; simp [removePass]
  | cons a rest ih =>
    intro st ops
    by_cases ha : (jsStartsWith a labelPfx && a != newLabel) = true
    · simp only [removePass]
      rw [if_pos ha, ih]
      simp [List.filter_cons, ha]
    · simp only [removePass]
      rw [if_neg ha, ih]
      simp [List.filter_cons, ha]

theorem contains_cons_str (a b : String) (l : List String) :
    (a :: l).contains b = (b == a || l.contains b) := rfl

theorem removePass_prLabels (labelPfx newLabel : String) :
    ∀ (l : List String) (st : RepoState) (ops : List LabelOp),
      (removePass labelPfx newLabel l (st, ops)).1.prLabels =
        st.prLabels.filter
          (fun n => !(jsStartsWith n labelPfx && n != newLabel && l.contains n)) := by
  intro l
  induction l with
  | nil =>
    intro st ops
    simp [removePass]
  | cons a rest ih =>
    intro st ops
    by_cases ha : (jsStartsWith a labelPfx && a != newLabel) = true
    · simp only [removePass]
      rw [if_pos ha, ih]
      show (st.prLabels.filter fun x => x != a).filter _ = _
      rw [List.filter_filter]
      apply List.filter_congr
      intro x _
      by_cases hxa : x = a
      · subst hxa
        simp [ha, contains_cons_str]
      · simp [contains_cons_str, hxa]
    · simp only [removePass]
      rw [if_neg ha, ih]
      apply List.filter_congr
      intro x _
      by_cases hxa : x = a
      · subst hxa
        have hf : (jsStartsWith x labelPfx && x != newLabel) = false :=
          Bool.not_eq_true _ |>.mp ha
        simp [hf, contains_cons_str]
      · simp [contains_cons_str, hxa]

theorem startsWithDiffers_false_iff (labelPfx newLabel name : String) :
    ((jsStartsWith name labelPfx && name != newLabel) = false) ↔
      ¬(jsStartsWith name labelPfx = true ∧ name ≠ newLabel) := by
  constructor
  · intro h hand
    obtain ⟨hsw, hne⟩ := hand
    have ht : (jsStartsWith name labelPfx && name != newLabel) = true := by
      simp [hsw, bne_iff_ne, hne]
    rw [ht] at h
    cases h
  · intro h
    by_cases hsw : jsStartsWith name labelPfx = true
    · by_cases hne : name = newLabel
      · simp [hne]
      · exact absurd ⟨hsw, hne⟩ h
    · simp [Bool.not_eq_true _ |>.mp hsw]

theorem mem_removalFilter (labelPfx newLabel : String) (l : List String)
    (name : String) :
    (name ∈ l.filter
      (fun n => !(jsStartsWith n labelPfx && n != newLabel && l.contains n))) ↔
      (name ∈ l ∧ (jsStartsWith name labelPfx && name != newLabel) = false) := by
  rw [List.mem_filter]
  constructor
  · rintro ⟨hmem, hcond⟩
    refine ⟨hmem, ?_⟩
    have hcont : l.contains name = true := List.elem_iff.mpr hmem
    rw [hcont, Bool.and_true, Bool.not_eq_eq_eq_not, Bool.not_true] at hcond
    exact hcond
  · rintro ⟨hmem, hp⟩
    exact ⟨hmem, by simp [hp]⟩

/-- C7: label reconciliation removes exactly the existing labels that
start with the configured prefix and differ from the new label, leaves
every other label untouched, and adds the new label only when it is not
already present, creating it repository-side first when it does not exist
(with the fixed color and description); on the concrete example the stale
prefixed label is replaced and the unrelated label kept, and rerunning on
the reconciled state performs no mutation. -/
theorem upsertSemverLabel_spec :
    (∀ (st : RepoState) (labelPfx newLabel : String), labelPfx ≠ "" →
      ((∀ name, name ∈ (upsertSemverLabel st labelPfx newLabel).1.prLabels ↔
        (name = newLabel ∨ (name ∈ st.prLabels ∧
          ¬(jsStartsWith name labelPfx = true ∧ name ≠ newLabel)))) ∧
       (upsertSemverLabel st labelPfx newLabel).2 =
        (st.prLabels.filter
          (fun n => jsStartsWith n labelPfx && n != newLabel)).map
            LabelOp.removeLabel ++
        (if st.prLabels.contains newLabel then [] else
          (if st.repoLabels.contains newLabel then [] else
            [LabelOp.createLabel newLabel "ededed" "Semver required update"]) ++
          [LabelOp.addLabels [newLabel]]))) ∧
    (upsertSemverLabel stLabelsEx "semver: " "semver: patch").1.prLabels =
      ["bug", "semver: patch"] ∧
    upsertSemverLabel stLabelsDone "semver: " "semver: patch" =
      (stLabelsDone, []) := by
  refine ⟨?_, rfl, rfl⟩
  intro st labelPfx newLabel hpfx
  have hpfxb : (labelPfx != "") = true := by simpa using hpfx
  have hstage1 : (removalStage st labelPfx newLabel).1.prLabels =
      st.prLabels.filter
        (fun n => !(jsStartsWith n labelPfx && n != newLabel &&
          st.prLabels.contains n)) := by
    unfold removalStage
    rw [if_pos hpfxb, removePass_prLabels]
  have hstagerepo : (removalStage st labelPfx newLabel).1.repoLabels =
      st.repoLabels := by
    unfold removalStage
    rw [if_pos hpfxb, removePass_repoLabels]
  have hstageops : (removalStage st labelPfx newLabel).2 =
      (st.prLabels.filter
        (fun n => jsStartsWith n labelPfx && n != newLabel)).map
          LabelOp.removeLabel := by
    unfold removalStage
    rw [if_pos hpfxb, removePass_ops]
    simp
  constructor
  · intro name
    by_cases hc : st.prLabels.contains newLabel = true
    · have hcm : newLabel ∈ st.prLabels := List.elem_iff.mp hc
      have hres : (upsertSemverLabel st labelPfx newLabel).1.prLabels =
          (removalStage st labelPfx newLabel).1.prLabels := by
        unfold upsertSemverLabel
        rw [if_neg (by simp [hcm])]
      rw [hres, hstage1, mem_removalFilter]
      constructor
      · rintro ⟨hmem, hp⟩
        exact Or.inr ⟨hmem, (startsWithDiffers_false_iff _ _ _).mp hp⟩
      · rintro (hnn | ⟨hmem, hnp⟩)
        · subst hnn
          exact ⟨hcm, by simp⟩
        · exact ⟨hmem, (startsWithDiffers_false_iff _ _ _).mpr hnp⟩
    · have hcm : newLabel ∉ st.prLabels := fun hm => hc (List.elem_iff.mpr hm)
      have hres : (upsertSemverLabel st labelPfx newLabel).1.prLabels =
          (removalStage st labelPfx newLabel).1.prLabels ++ [newLabel] := by
        unfold upsertSemverLabel
        rw [if_pos (by simp [hcm])]
        by_cases hrc :
            (removalStage st labelPfx newLabel).1.repoLabels.contains newLabel = true
        · rw [if_pos hrc]
        · rw [if_neg hrc]
      rw [hres, List.mem_append, hstage1, mem_removalFilter]
      constructor
      · rintro (⟨hmem, hp⟩ | hnl)
        · exact Or.inr ⟨hmem, (startsWithDiffers_false_iff _ _ _).mp hp⟩
        · exact Or.inl (by simpa using hnl)
      · rintro (hnn | ⟨hmem, hnp⟩)
        · exact Or.inr (by simp [hnn])
        · exact Or.inl ⟨hmem, (startsWithDiffers_false_iff _ _ _).mpr hnp⟩
  · by_cases hc : st.prLabels.contains newLabel = true
    · have hcm : newLabel ∈ st.prLabels := List.elem_iff.mp hc
      unfold upsertSemverLabel
      rw [if_neg (by simp [hcm])]
      rw [hstageops, if_pos hc]
      simp
    · have hcm : newLabel ∉ st.prLabels := fun hm => hc (List.elem_iff.mpr hm)
      have hc' : st.prLabels.contains newLabel = false :=
        Bool.not_eq_true _ |>.mp hc
      unfold upsertSemverLabel
      rw [if_pos (by simp [hcm])]
      by_cases hrc : st.repoLabels.contains newLabel = true
      · rw [if_pos (by rw [hstagerepo]; exact hrc)]
        rw [hstageops, if_neg (by simp [hcm]), if_pos hrc]
        simp
      · have hrcm : newLabel ∉ st.repoLabels := fun hm => hrc (List.elem_iff.mpr hm)
        rw [if_neg (by rw [hstagerepo]; simp [hrcm])]
        rw [hstageops, if_neg (by simp [hcm]), if_neg (by simp [hrcm])]
        simp

/-- Witness for C7: on the concrete pre-reconciliation state the
performed mutations are exactly the removal of the stale prefixed label
followed by adding the new one. -/
theorem upsertSemverLabel_spec_witness :
    (upsertSemverLabel stLabelsEx "semver: " "semver: patch").2 =
      (stLabelsEx.prLabels.filter
        (fun n => jsStartsWith n "semver: " && n != "semver: patch")).map
          LabelOp.removeLabel ++
      (if stLabelsEx.prLabels.contains "semver: patch" then [] else
        (if stLabelsEx.repoLabels.contains "semver: patch" then [] else
          [LabelOp.createLabel "semver: patch" "ededed" "Semver required update"]) ++
        [LabelOp.addLabels ["semver: patch"]]) :=
  (upsertSemverLabel_spec.1 stLabelsEx "semver: " "semver: patch" (by decide)).2

end SemverAction
